import Mathlib

/-!
# Segment/angle layout engine of the bulls-eye radar application

Shallow embedding of the layout code of the repository: the
`calculate_segment_positions` variants of `bullseye_radar_app V1.1.py`
(referred to below by the line at which each variant starts in the
concatenated source: v64, v2231, v2431, v2910 -- the variants at lines
860, 1796 and 3355 are textually identical to v64 or v2910 in the parts
modelled here), `calculate_position_in_segment` of
`bullseye_radar_app.py`, and the `phase_to_radius` variants.

Conventions of the embedding:

* Angles are measured in *turns*: a value `a : ℚ` stands for the angle
  `a * 2π` radians.  Every angle the source computes is an exact rational
  multiple of `2π` (`np.pi` enters every formula linearly), so this is the
  exact-real semantics of the float code; float rounding is the spec's
  "floating-point tolerance" concern and is outside the embedding.
  The full circle `2π` is the rational `1`.
* A pandas `DataFrame` row is a `Record`; whether the chosen
  `segment_column` is present in the frame is the flag `colPresent`, and
  the value `row[segment_column]` is the field `key`.
* Raising `ZeroDivisionError` / `KeyError` is returning `Except.error`.
-/

/-- One row of the asset table: display name, phase status, and the value
of the grouping column selected by the caller. -/
structure Record where
  asset : String
  phase : String
  key : String
deriving Repr, DecidableEq

/-- The untyped built-in Python exceptions the layout code can raise. -/
inductive PyError where
  | zeroDivision
  | keyError
deriving Repr, DecidableEq

/-- The per-segment dictionary `{'base_angle': _, 'end_angle': _, 'positions': _}`
built by the `calculate_segment_positions` variants. -/
structure SegInfo where
  base_angle : ℚ
  end_angle : ℚ
  positions : List ℚ
deriving Repr, DecidableEq

/-- The per-segment dictionary `{'base_angle': _, 'end_angle': _}` of the
v2231 variant (no `positions` entry). -/
structure SegSpan where
  base_angle : ℚ
  end_angle : ℚ
deriving Repr, DecidableEq

/-- Return value of the v64 variant: a bare list on the missing-column
fallback path, a 2-tuple `(angles, segment_positions)` otherwise. -/
inductive PosResult where
  | bare (angles : List ℚ)
  | pair (angles : List ℚ) (segs : List (String × SegInfo))
deriving Repr, DecidableEq

/-- Helper for `uniqueFirstSeen`: emit each value not seen before, in
order, remembering the values already seen. -/
def uniqueAux : List String → List String → List String
  | _, [] => []
  | seen, x :: xs =>
    if seen.contains x then uniqueAux seen xs
    else x :: uniqueAux (seen ++ [x]) xs

/-- pandas `Series.unique()`: the distinct values in order of first
appearance (documented pandas behavior; not an unordered set). -/
def uniqueFirstSeen (l : List String) : List String :=
  uniqueAux [] l

/-- Python list slicing `l[:n]` for a possibly negative `n`. -/
def pySliceTake (n : Int) (l : List α) : List α :=
  if 0 ≤ n then l.take n.toNat else l.take (l.length - (-n).toNat)

/-- `np.linspace(0, 2π, n, endpoint=False)` in turns: `k / n` for `k < n`. -/
def linspaceTurns (n : Nat) : List ℚ :=
  (List.range n).map (fun (k : Nat) => (k : ℚ) / (n : ℚ))

/-- `data[segment_column].unique()` applied to the whole record list. -/
def segKeys (data : List Record) : List String :=
  uniqueFirstSeen (data.map (fun r => r.key))

/-- The `positions` list of one segment: the single member of a
one-member segment sits at the segment midpoint, `n > 1` members are
spread from `base + pad` to `base + segAngle - pad` in equal steps
(the v64/v2910 variants use `pad = segAngle * 0.1`, v2431 uses
`segAngle * 0.15` or `segAngle * 0.08`). -/
def positionsForPad (base segAngle pad : ℚ) (n : Nat) : List ℚ :=
  if n = 1 then [base + segAngle / 2]
  else (List.range n).map
    (fun (j : Nat) => base + pad + (j : ℚ) * (segAngle - 2 * pad) / ((n : ℚ) - 1))

/-- The `for i, segment in enumerate(segments[:num_segments])` loop that
fills `segment_positions`; `i` is the explicit enumeration counter. -/
def buildSegPositions (data : List Record) (segAngle pad : ℚ) :
    Nat → List String → List (String × SegInfo)
  | _, [] => []
  | i, s :: rest =>
    (s, { base_angle := (i : ℚ) * segAngle
          end_angle := (i : ℚ) * segAngle + segAngle
          positions := positionsForPad ((i : ℚ) * segAngle) segAngle pad
            ((data.filter (fun r => r.key == s)).length) })
      :: buildSegPositions data segAngle pad (i + 1) rest

/-- The final assignment loop of the v64 variant: for each row in input
order, if its segment survived the cutoff, look the row's position up by
the index of its *asset name* in the segment's member list
(`list(segment_data['Asset']).index(row['Asset'])`) and append it.
(The loop also fills a dict `angle_dict` that the function never
returns; that dead store is omitted.) -/
def assignAngles (data : List Record) (segPositions : List (String × SegInfo)) : List ℚ :=
  data.filterMap (fun r =>
    match segPositions.find? (fun p => p.1 == r.key) with
    | some p =>
      let assets := (data.filter (fun x => x.key == r.key)).map (fun x => x.asset)
      if h : assets.indexOf r.asset < p.2.positions.length then
        some (p.2.positions.get ⟨assets.indexOf r.asset, h⟩)
      else none
    | none => none)

/-- The assignment loop of the v2910 variant: the row's position index is
`list(segment_data.index).index(row.name)`, i.e. the number of earlier
rows carrying the same key; `idx` is the current row's position in the
full frame (rows are consumed from `rest`, `data` is the whole frame). -/
def assignAnglesByIndex (data : List Record) (segPositions : List (String × SegInfo)) :
    Nat → List Record → List ℚ
  | _, [] => []
  | idx, r :: rest =>
    match segPositions.find? (fun p => p.1 == r.key) with
    | some p =>
      let asset_idx := ((data.take idx).filter (fun x => x.key == r.key)).length
      if h : asset_idx < p.2.positions.length then
        p.2.positions.get ⟨asset_idx, h⟩ :: assignAnglesByIndex data segPositions (idx + 1) rest
      else assignAnglesByIndex data segPositions (idx + 1) rest
    | none => assignAnglesByIndex data segPositions (idx + 1) rest

/-- `calculate_segment_positions(data, segment_column, max_segments=8)` of
the variant at line 64 of the concatenated source (identical at line 870
up to asset-name lookup, see `assignAngles`).  Missing grouping column
returns a *bare* list `list(np.linspace(0, 2π, len(data), endpoint=False))`;
otherwise `num_segments = min(len(unique), max_segments)` and
`segment_angle = 2π/num_segments` raises `ZeroDivisionError` when
`num_segments == 0`. -/
def calculate_segment_positions (data : List Record) (colPresent : Bool)
    (max_segments : Int) : Except PyError PosResult :=
  if colPresent = false then .ok (.bare (linspaceTurns data.length))
  else
    let num : Int := min ((segKeys data).length : Int) max_segments
    if num = 0 then .error .zeroDivision
    else
      let segAngle : ℚ := 1 / (num : ℚ)
      let segPositions :=
        buildSegPositions data segAngle (segAngle * (1 / 10)) 0
          (pySliceTake num (segKeys data))
      .ok (.pair (assignAngles data segPositions) segPositions)

/-- The variant at line 2910 (and, textually identical, 1796 and 3355):
the missing-column fallback returns the 2-tuple
`(np.linspace(0, 2π, len(data), endpoint=False), {})`, and row positions
are looked up by row index rather than asset name. -/
def calculate_segment_positions_v2910 (data : List Record) (colPresent : Bool)
    (max_segments : Int) : Except PyError PosResult :=
  if colPresent = false then .ok (.pair (linspaceTurns data.length) [])
  else
    let num : Int := min ((segKeys data).length : Int) max_segments
    if num = 0 then .error .zeroDivision
    else
      let segAngle : ℚ := 1 / (num : ℚ)
      let segPositions :=
        buildSegPositions data segAngle (segAngle * (1 / 10)) 0
          (pySliceTake num (segKeys data))
      .ok (.pair (assignAnglesByIndex data segPositions 0 data) segPositions)

/-- The variant at line 2431: no `max_segments` parameter and no cutoff
(`num_segments = len(unique)`), padding `0.15 * segment_angle` when there
are exactly two segments and `0.08 * segment_angle` otherwise, positions
looked up by row index.  With no cutoff every row's key is present in
`segment_positions`, so the source's unguarded dict indexing never
raises and equals the guarded lookup used here.  Zero records give
`num_segments = 0` and hence `ZeroDivisionError`. -/
def calculate_segment_positions_v2431 (data : List Record) :
    Except PyError (List ℚ × List (String × SegInfo)) :=
  let num : Int := ((segKeys data).length : Int)
  if num = 0 then .error .zeroDivision
  else
    let segAngle : ℚ := 1 / (num : ℚ)
    let pad : ℚ := if num = 2 then segAngle * (15 / 100) else segAngle * (8 / 100)
    let segPositions := buildSegPositions data segAngle pad 0 (segKeys data)
    .ok (assignAnglesByIndex data segPositions 0 data, segPositions)

/-- The `for i, lbl in enumerate(labels)` loop of the v2231 variant over
`angles = np.linspace(0, 2π, len(labels)+1)`: segment `i` spans
`[angles[i], angles[i+1]] = [i/n, (i+1)/n]` turns (`n = len(labels)`). -/
def buildSegSpans (n : ℚ) : Nat → List String → List (String × SegSpan)
  | _, [] => []
  | i, s :: rest =>
    (s, { base_angle := (i : ℚ) / n, end_angle := ((i : ℚ) + 1) / n })
      :: buildSegSpans n (i + 1) rest

/-- The variant at line 2231: `labels = unique()[:max_segments]`, segment
bounds from an inclusive `linspace`, and *every* row is assigned the
`base_angle` of its segment (`seg_info[row[segment_column]]['base_angle']`);
a row whose key was truncated away raises `KeyError`. -/
def calculate_segment_positions_v2231 (data : List Record) (max_segments : Int) :
    Except PyError (List ℚ × List (String × SegSpan)) :=
  let labels := pySliceTake max_segments (segKeys data)
  let seg_info := buildSegSpans (labels.length : ℚ) 0 labels
  (data.mapM (fun (r : Record) =>
      match seg_info.find? (fun (p : String × SegSpan) => p.1 == r.key) with
      | some p => (Except.ok p.2.base_angle : Except PyError ℚ)
      | none => Except.error PyError.keyError)).map
    (fun pos => (pos, seg_info))

/-- The per-row body of the loop in `calculate_position_in_segment`
(`bullseye_radar_app.py`): `segment_idx` is the index of the row's key
among *all* distinct keys (not capped by `num_segments`), and within the
segment a single member sits at `segment_angle/2` while member
`asset_idx` of `n > 1` sits at `asset_idx * segment_angle / n`. -/
def cpisRow (data : List Record) (segments : List String) (segAngle : ℚ)
    (idx : Nat) (r : Record) : ℚ :=
  let segment_idx := segments.indexOf r.key
  let n := (data.filter (fun x => x.key == r.key)).length
  let asset_idx := ((data.take idx).filter (fun x => x.key == r.key)).length
  let within := if n = 1 then segAngle / 2 else ((asset_idx : ℚ) * segAngle) / (n : ℚ)
  (segment_idx : ℚ) * segAngle + within

/-- The `for i, (_, row) in enumerate(data.iterrows())` loop of
`calculate_position_in_segment`; `idx` is the enumeration counter. -/
def cpisAngles (data : List Record) (segments : List String) (segAngle : ℚ) :
    Nat → List Record → List ℚ
  | _, [] => []
  | idx, r :: rest =>
    cpisRow data segments segAngle idx r
      :: cpisAngles data segments segAngle (idx + 1) rest

/-- `calculate_position_in_segment(data, segment_column, num_segments=None)`
of `bullseye_radar_app.py`: missing column falls back to
`np.linspace(0, 2π, len(data), endpoint=False)`; otherwise
`num_segments` defaults to the distinct-key count and
`segment_angle = 2π / num_segments` raises `ZeroDivisionError` when that
count is zero. -/
def calculate_position_in_segment (data : List Record) (colPresent : Bool)
    (num_segments : Option Int) : Except PyError (List ℚ) :=
  if colPresent = false then .ok (linspaceTurns data.length)
  else
    let segments := segKeys data
    let num : Int := num_segments.getD (segments.length : Int)
    if num = 0 then .error .zeroDivision
    else .ok (cpisAngles data segments (1 / (num : ℚ)) 0 data)

/-- `phase_to_radius` of the variants at lines 54, 1796, 2245, 2422, 2445
and 2901: `{'Phase 1': 25, 'Phase 2': 50, 'Phase 3': 75,
'Marketed': 100}.get(phase, 0)`.  Radius is in percent of the outer
ring; the radius *fraction* of the spec is this value over 100. -/
def phase_to_radius (phase : String) : ℚ :=
  if phase = "Phase 1" then 25
  else if phase = "Phase 2" then 50
  else if phase = "Phase 3" then 75
  else if phase = "Marketed" then 100
  else 0

/-- `phase_to_radius` of the variant at line 860: the reversed mapping
(`Marketed` innermost), same default `0`. -/
def phase_to_radius_v860 (phase : String) : ℚ :=
  if phase = "Marketed" then 25
  else if phase = "Phase 3" then 50
  else if phase = "Phase 2" then 75
  else if phase = "Phase 1" then 100
  else 0

/-- `phase_to_radius` of the variant at line 3345:
`phase_mapping.get(phase, 25)` -- the default for unknown phases is `25`,
not `0`. -/
def phase_to_radius_v3345 (phase : String) : ℚ :=
  if phase = "Phase 1" then 25
  else if phase = "Phase 2" then 50
  else if phase = "Phase 3" then 75
  else if phase = "Marketed" then 100
  else 25

/-- The two shapes Python tuple-unpacking `angles, segment_info = result`
can see: a genuine 2-tuple unpacks into its components, a bare list
unpacks only when it has exactly two elements (and then each variable
receives one *angle*, not a metadata component); any other length raises
`ValueError` (`none` here). -/
inductive Unpacked where
  | fromPair (angles : List ℚ) (segs : List (String × SegInfo))
  | fromBare (first second : ℚ)
deriving Repr, DecidableEq

/-- Python 2-tuple unpacking applied to a `PosResult`. -/
def unpack2 : PosResult → Option Unpacked
  | .pair a s => some (.fromPair a s)
  | .bare [x, y] => some (.fromBare x y)
  | .bare _ => none

/-! ## Named intermediate values of `calculate_segment_positions`,
used to state properties of its output. -/

/-- `num_segments = min(len(segments), max_segments)` of the v64/v2910
variants. -/
def cspNum (data : List Record) (m : Int) : Int :=
  min ((segKeys data).length : Int) m

/-- `segments[:num_segments]`: the distinct keys that survive the cutoff. -/
def survivingKeys (data : List Record) (m : Int) : List String :=
  pySliceTake (cspNum data m) (segKeys data)

/-- `segment_angle = 2π / num_segments` in turns. -/
def cspSegAngle (data : List Record) (m : Int) : ℚ :=
  1 / ((cspNum data m : Int) : ℚ)

/-- The `segment_positions` dictionary computed by the v64/v2910 variants. -/
def cspSegs (data : List Record) (m : Int) : List (String × SegInfo) :=
  buildSegPositions data (cspSegAngle data m) (cspSegAngle data m * (1 / 10)) 0
    (survivingKeys data m)

/-- The angle the v64 variant assigns to record `r`: its segment's
position at the index of `r`'s asset name (`0` as junk default when the
segment is absent -- never used for surviving records). -/
def recordAngle (data : List Record) (segs : List (String × SegInfo)) (r : Record) : ℚ :=
  match segs.find? (fun p => p.1 == r.key) with
  | some p =>
    p.2.positions.getD
      (((data.filter (fun x => x.key == r.key)).map (fun x => x.asset)).indexOf r.asset) 0
  | none => 0

/-- `segment_angle` of `calculate_position_in_segment` in turns:
`num_segments` defaults to the distinct-key count. -/
def cpisSegAngle (data : List Record) (num_segments : Option Int) : ℚ :=
  1 / ((num_segments.getD ((segKeys data).length : Int) : Int) : ℚ)

/-- Whether a `PosResult` is the 2-tuple shape. -/
def isPair : PosResult → Bool
  | .pair _ _ => true
  | .bare _ => false

/-- The angle list of either `PosResult` shape. -/
def resAngles : PosResult → List ℚ
  | .pair a _ => a
  | .bare a => a

/-- The segment dictionary of a `PosResult` (`[]` for the bare shape). -/
def resSegs : PosResult → List (String × SegInfo)
  | .pair _ s => s
  | .bare _ => []

/-- Whether an `Except` result returned normally. -/
def isOkResult : Except PyError PosResult → Bool
  | .ok _ => true
  | .error _ => false

/-! ## Helper lemmas -/

theorem mem_of_mem_uniqueAux : ∀ (l seen : List String) (s : String),
    s ∈ uniqueAux seen l → s ∈ l := by
  intro l
  induction l with
  | nil => intro seen s h; simp [uniqueAux] at h
  | cons x xs ih =>
    intro seen s h
    rw [uniqueAux] at h
    split at h
    · exact List.mem_cons_of_mem x (ih seen s h)
    · rcases List.mem_cons.1 h with h1 | h2
      · exact h1 ▸ List.mem_cons_self x xs
      · exact List.mem_cons_of_mem x (ih (seen ++ [x]) s h2)

theorem mem_of_mem_uniqueFirstSeen (l : List String) (s : String)
    (h : s ∈ uniqueFirstSeen l) : s ∈ l :=
  mem_of_mem_uniqueAux l [] s h

theorem segKeys_ne_nil (data : List Record) (h : data ≠ []) : segKeys data ≠ [] := by
  match data with
  | [] => exact absurd rfl h
  | r :: rest => simp [segKeys, uniqueFirstSeen, uniqueAux]

theorem segKeys_length_pos (data : List Record) (h : data ≠ []) : 0 < (segKeys data).length :=
  List.length_pos.2 (segKeys_ne_nil data h)

theorem mem_segKeys (data : List Record) (s : String) (h : s ∈ segKeys data) :
    ∃ r ∈ data, r.key = s := by
  have := mem_of_mem_uniqueFirstSeen _ _ h
  rcases List.mem_map.1 this with ⟨r, hr, hk⟩
  exact ⟨r, hr, hk⟩

theorem pySliceTake_length_of_le (n : Int) (l : List α) (h0 : 0 ≤ n) (h1 : n ≤ (l.length : Int)) :
    (pySliceTake n l).length = n.toNat := by
  rw [pySliceTake, if_pos h0, List.length_take]
  omega

theorem pySliceTake_subset (n : Int) (l : List α) (x : α) (h : x ∈ pySliceTake n l) : x ∈ l := by
  rw [pySliceTake] at h
  split at h <;> exact List.take_subset _ _ h

theorem positionsForPad_length (b sa pad : ℚ) (n : Nat) :
    (positionsForPad b sa pad n).length = n := by
  rw [positionsForPad]
  split
  · next h1 => simp [h1]
  · simp

theorem positionsForPad_one (b sa pad : ℚ) : positionsForPad b sa pad 1 = [b + sa / 2] := by
  rw [positionsForPad, if_pos rfl]

theorem positionsForPad_getElem (b sa pad : ℚ) (n : Nat) (hn : n ≠ 1) (j : Nat)
    (h : j < (positionsForPad b sa pad n).length) :
    (positionsForPad b sa pad n)[j] =
      b + pad + (j : ℚ) * (sa - 2 * pad) / ((n : ℚ) - 1) := by
  have h2 : positionsForPad b sa pad n = (List.range n).map
      (fun (j : Nat) => b + pad + (j : ℚ) * (sa - 2 * pad) / ((n : ℚ) - 1)) := by
    rw [positionsForPad, if_neg hn]
  revert h
  rw [h2]
  intro h
  simp

theorem positionsForPad_mem_bounds (b sa pad : ℚ) (n : Nat) (hpad : 0 < pad)
    (hpad2 : 2 * pad < sa) (x : ℚ) (hx : x ∈ positionsForPad b sa pad n) :
    b ≤ x ∧ x < b + sa := by
  rw [positionsForPad] at hx
  split at hx
  · rcases List.mem_singleton.1 hx with rfl
    constructor <;> linarith
  · next hn1 =>
    rcases List.mem_map.1 hx with ⟨j, hj, rfl⟩
    have hjn : j < n := List.mem_range.1 hj
    have hn2 : 2 ≤ n := by omega
    have hd : (0 : ℚ) < (n : ℚ) - 1 := by
      have : (2 : ℚ) ≤ (n : ℚ) := by exact_mod_cast hn2
      linarith
    have hjd : (j : ℚ) ≤ (n : ℚ) - 1 := by
      have : (j : ℚ) + 1 ≤ (n : ℚ) := by exact_mod_cast hjn
      linarith
    have hc : (0 : ℚ) < sa - 2 * pad := by linarith
    have hle : (j : ℚ) * (sa - 2 * pad) / ((n : ℚ) - 1) ≤ sa - 2 * pad := by
      rw [div_le_iff₀ hd]
      have := mul_le_mul_of_nonneg_right hjd hc.le
      linarith [this]
    have hge : (0 : ℚ) ≤ (j : ℚ) * (sa - 2 * pad) / ((n : ℚ) - 1) := by positivity
    constructor <;> linarith

theorem buildSegPositions_cons (data : List Record) (sa pad : ℚ) (i : Nat) (s : String)
    (rest : List String) :
    buildSegPositions data sa pad i (s :: rest) =
      (s, { base_angle := (i : ℚ) * sa
            end_angle := (i : ℚ) * sa + sa
            positions := positionsForPad ((i : ℚ) * sa) sa pad
              ((data.filter (fun r => r.key == s)).length) })
        :: buildSegPositions data sa pad (i + 1) rest := by
  rw [buildSegPositions]

theorem buildSegPositions_length (data : List Record) (sa pad : ℚ) :
    ∀ (used : List String) (i : Nat), (buildSegPositions data sa pad i used).length = used.length
  | [], _ => rfl
  | s :: rest, i => by
    rw [buildSegPositions_cons]
    simp [buildSegPositions_length data sa pad rest (i + 1)]

theorem buildSegPositions_map_fst (data : List Record) (sa pad : ℚ) :
    ∀ (used : List String) (i : Nat),
      (buildSegPositions data sa pad i used).map Prod.fst = used
  | [], _ => rfl
  | s :: rest, i => by
    rw [buildSegPositions_cons]
    simp [buildSegPositions_map_fst data sa pad rest (i + 1)]

theorem buildSegPositions_getElem (data : List Record) (sa pad : ℚ) :
    ∀ (used : List String) (i0 j : Nat) (hj : j < used.length)
      (hj2 : j < (buildSegPositions data sa pad i0 used).length),
      (buildSegPositions data sa pad i0 used)[j] =
        (used[j],
         { base_angle := ((i0 + j : Nat) : ℚ) * sa
           end_angle := ((i0 + j : Nat) : ℚ) * sa + sa
           positions := positionsForPad (((i0 + j : Nat) : ℚ) * sa) sa pad
             ((data.filter (fun r => r.key == used[j])).length) })
  | [], _, j, hj, _ => by simp at hj
  | s :: rest, i0, 0, hj, hj2 => by
    simp only [buildSegPositions_cons, List.getElem_cons_zero]
    simp
  | s :: rest, i0, j + 1, hj, hj2 => by
    have hj' : j < rest.length := by simpa using hj
    have hj2' : j < (buildSegPositions data sa pad (i0 + 1) rest).length := by
      rw [buildSegPositions_length]; exact hj'
    simp only [buildSegPositions_cons, List.getElem_cons_succ]
    rw [buildSegPositions_getElem data sa pad rest (i0 + 1) j hj' hj2']
    have h3 : i0 + 1 + j = i0 + (j + 1) := by omega
    rw [h3]

theorem mem_buildSegPositions (data : List Record) (sa pad : ℚ)
    (used : List String) (i0 : Nat) (p : String × SegInfo)
    (hp : p ∈ buildSegPositions data sa pad i0 used) :
    ∃ j, j < used.length ∧ p.1 ∈ used ∧
      p.2.base_angle = ((i0 + j : Nat) : ℚ) * sa ∧
      p.2.end_angle = p.2.base_angle + sa ∧
      p.2.positions = positionsForPad p.2.base_angle sa pad
        ((data.filter (fun r => r.key == p.1)).length) := by
  rcases List.mem_iff_getElem.1 hp with ⟨j, hj2, hget⟩
  have hj : j < used.length := by
    rw [← buildSegPositions_length data sa pad used i0]; exact hj2
  rw [buildSegPositions_getElem data sa pad used i0 j hj hj2] at hget
  refine ⟨j, hj, ?_, ?_, ?_, ?_⟩
  · rw [← hget]; exact List.getElem_mem hj
  · rw [← hget]
  · rw [← hget]
  · rw [← hget]

theorem linspaceTurns_length (n : Nat) : (linspaceTurns n).length = n := by
  simp [linspaceTurns]

theorem csp_run_zero (data : List Record) (m : Int) (h : cspNum data m = 0) :
    calculate_segment_positions data true m = .error .zeroDivision := by
  rw [calculate_segment_positions]
  simp only [Bool.true_eq_false, if_false]
  rw [cspNum] at h
  simp [h]

theorem csp_run (data : List Record) (m : Int) (h : cspNum data m ≠ 0) :
    calculate_segment_positions data true m =
      .ok (.pair (assignAngles data (cspSegs data m)) (cspSegs data m)) := by
  rw [calculate_segment_positions]
  simp only [Bool.true_eq_false, if_false]
  rw [cspNum] at h
  rw [cspSegs, cspSegAngle, survivingKeys, cspNum]
  simp [h]

theorem cspNum_ne_zero_of_ok (data : List Record) (m : Int) (res : PosResult)
    (hres : calculate_segment_positions data true m = .ok res) : cspNum data m ≠ 0 := by
  intro h
  rw [csp_run_zero data m h] at hres
  exact Except.noConfusion hres

theorem ok_pair_of_run (data : List Record) (m : Int) (angles : List ℚ)
    (segs : List (String × SegInfo))
    (hres : calculate_segment_positions data true m = .ok (.pair angles segs)) :
    angles = assignAngles data (cspSegs data m) ∧ segs = cspSegs data m := by
  have h0 : cspNum data m ≠ 0 := cspNum_ne_zero_of_ok data m _ hres
  rw [csp_run data m h0] at hres
  have h1 := Except.ok.inj hres
  have h2 := PosResult.pair.inj h1.symm
  exact ⟨h2.1, h2.2⟩

theorem filterMap_eq_map_filter (l : List α) (f : α → Option β) (p : α → Bool) (g : α → β)
    (h : ∀ x ∈ l, f x = if p x then some (g x) else none) :
    l.filterMap f = (l.filter p).map g := by
  induction l with
  | nil => rfl
  | cons x xs ih =>
    rw [List.filterMap_cons, List.filter_cons, h x (List.mem_cons_self x xs)]
    by_cases hp : p x = true
    · rw [if_pos hp, if_pos hp, List.map_cons, ih (fun y hy => h y (List.mem_cons_of_mem x hy))]
    · rw [if_neg hp, if_neg (by simpa using hp)]
      exact ih (fun y hy => h y (List.mem_cons_of_mem x hy))

theorem cspSegs_map_fst (data : List Record) (m : Int) :
    (cspSegs data m).map Prod.fst = survivingKeys data m := by
  rw [cspSegs]
  exact buildSegPositions_map_fst data _ _ _ 0

theorem assign_body_eq (data : List Record) (m : Int) (r : Record) (hr : r ∈ data) :
    (match (cspSegs data m).find? (fun q => q.1 == r.key) with
     | some p =>
       let assets := (data.filter (fun x => x.key == r.key)).map (fun x => x.asset)
       if h : assets.indexOf r.asset < p.2.positions.length then
         some (p.2.positions.get ⟨assets.indexOf r.asset, h⟩)
       else none
     | none => none) =
      if (survivingKeys data m).contains r.key then
        some (recordAngle data (cspSegs data m) r)
      else none := by
  by_cases hmem : r.key ∈ survivingKeys data m
  · have hcont : (survivingKeys data m).contains r.key = true := by simpa using hmem
    have hex : ∃ q ∈ cspSegs data m, (q.1 == r.key) = true := by
      rw [← cspSegs_map_fst data m] at hmem
      rcases List.mem_map.1 hmem with ⟨q, hq, hfst⟩
      exact ⟨q, hq, by rw [hfst]; exact beq_self_eq_true r.key⟩
    have hsome : ((cspSegs data m).find? (fun q => q.1 == r.key)).isSome :=
      List.find?_isSome.2 hex
    obtain ⟨p, hfind⟩ := Option.isSome_iff_exists.1 hsome
    have hsat := List.find?_some hfind
    have hp1 : p.1 = r.key := eq_of_beq (by simpa using hsat)
    have hpmem : p ∈ cspSegs data m := List.mem_of_find?_eq_some hfind
    rw [cspSegs] at hpmem
    obtain ⟨j, hj, _, hbase, hend, hpos⟩ :=
      mem_buildSegPositions data _ _ _ 0 p hpmem
    have hrf : r ∈ data.filter (fun x => x.key == r.key) :=
      List.mem_filter.2 ⟨hr, by simp⟩
    have hlen : p.2.positions.length = (data.filter (fun x => x.key == r.key)).length := by
      rw [hpos, hp1, positionsForPad_length]
    have hidx : ((data.filter (fun x => x.key == r.key)).map (fun x => x.asset)).indexOf r.asset
        < p.2.positions.length := by
      rw [hlen, ← List.length_map (data.filter (fun x => x.key == r.key)) (fun x => x.asset)]
      exact List.indexOf_lt_length.2 (List.mem_map_of_mem (fun x => x.asset) hrf)
    simp only [hfind, hidx, dif_pos, if_pos hcont]
    rw [recordAngle, hfind]
    congr 1
    show p.2.positions.get
        ⟨((data.filter (fun x => x.key == r.key)).map (fun x => x.asset)).indexOf r.asset, hidx⟩ =
      p.2.positions.getD
        (((data.filter (fun x => x.key == r.key)).map (fun x => x.asset)).indexOf r.asset) 0
    rw [List.getD_eq_getElem _ _ hidx]
    rfl
  · have hnone : (cspSegs data m).find? (fun q => q.1 == r.key) = none := by
      refine List.find?_eq_none.2 (fun q hq hbeq => hmem ?_)
      have hfst : q.1 = r.key := eq_of_beq hbeq
      rw [← hfst, ← cspSegs_map_fst data m]
      exact List.mem_map_of_mem Prod.fst hq
    simp only [hnone]
    rw [if_neg (by simpa using hmem)]

theorem assignAngles_eq_map_filter (data : List Record) (m : Int) :
    assignAngles data (cspSegs data m) =
      (data.filter (fun r => (survivingKeys data m).contains r.key)).map
        (recordAngle data (cspSegs data m)) := by
  rw [assignAngles]
  exact filterMap_eq_map_filter data _ _ _ (fun r hr => assign_body_eq data m r hr)

theorem cpisAngles_length (data : List Record) (segments : List String) (sa : ℚ) :
    ∀ (rows : List Record) (idx : Nat),
      (cpisAngles data segments sa idx rows).length = rows.length
  | [], _ => rfl
  | r :: rest, idx => by
    rw [cpisAngles]
    simp [cpisAngles_length data segments sa rest (idx + 1)]

theorem cpisAngles_cons (data : List Record) (segments : List String) (sa : ℚ)
    (idx : Nat) (r : Record) (rest : List Record) :
    cpisAngles data segments sa idx (r :: rest) =
      cpisRow data segments sa idx r :: cpisAngles data segments sa (idx + 1) rest := by
  rw [cpisAngles]

theorem cpisAngles_getElem (data : List Record) (segments : List String) (sa : ℚ) :
    ∀ (rows : List Record) (idx i : Nat) (hi : i < rows.length)
      (hi2 : i < (cpisAngles data segments sa idx rows).length),
      (cpisAngles data segments sa idx rows)[i] =
        cpisRow data segments sa (idx + i) (rows[i])
  | [], _, i, hi, _ => by simp at hi
  | r :: rest, idx, 0, hi, hi2 => by
    simp only [cpisAngles_cons, List.getElem_cons_zero]
    simp
  | r :: rest, idx, i + 1, hi, hi2 => by
    simp only [cpisAngles_cons]
    have hi' : i < rest.length := by simpa using hi
    have hi2' : i < (cpisAngles data segments sa (idx + 1) rest).length := by
      rw [cpisAngles_length]; exact hi'
    simp only [List.getElem_cons_succ]
    rw [cpisAngles_getElem data segments sa rest (idx + 1) i hi' hi2']
    have h3 : idx + 1 + i = idx + (i + 1) := by omega
    rw [h3]

theorem cpis_run (data : List Record) (num_segments : Option Int)
    (h : num_segments.getD ((segKeys data).length : Int) ≠ 0) :
    calculate_position_in_segment data true num_segments =
      .ok (cpisAngles data (segKeys data) (cpisSegAngle data num_segments) 0 data) := by
  rw [calculate_position_in_segment, cpisSegAngle]
  simp only [Bool.true_eq_false, if_false]
  simp [h]

theorem cpis_run_zero (data : List Record) (num_segments : Option Int)
    (h : num_segments.getD ((segKeys data).length : Int) = 0) :
    calculate_position_in_segment data true num_segments = .error .zeroDivision := by
  rw [calculate_position_in_segment]
  simp only [Bool.true_eq_false, if_false]
  simp [h]

theorem buildSegSpans_cons (n : ℚ) (i : Nat) (s : String) (rest : List String) :
    buildSegSpans n i (s :: rest) =
      (s, { base_angle := (i : ℚ) / n, end_angle := ((i : ℚ) + 1) / n })
        :: buildSegSpans n (i + 1) rest := by
  rw [buildSegSpans]

theorem buildSegSpans_length (n : ℚ) :
    ∀ (used : List String) (i : Nat), (buildSegSpans n i used).length = used.length
  | [], _ => rfl
  | s :: rest, i => by
    rw [buildSegSpans_cons]
    simp [buildSegSpans_length n rest (i + 1)]

theorem buildSegSpans_getElem (n : ℚ) :
    ∀ (used : List String) (i0 j : Nat) (hj : j < used.length)
      (hj2 : j < (buildSegSpans n i0 used).length),
      (buildSegSpans n i0 used)[j] =
        (used[j],
         { base_angle := ((i0 + j : Nat) : ℚ) / n
           end_angle := (((i0 + j : Nat) : ℚ) + 1) / n })
  | [], _, j, hj, _ => by simp at hj
  | s :: rest, i0, 0, hj, hj2 => by
    simp only [buildSegSpans_cons, List.getElem_cons_zero]
    simp
  | s :: rest, i0, j + 1, hj, hj2 => by
    have hj' : j < rest.length := by simpa using hj
    have hj2' : j < (buildSegSpans n (i0 + 1) rest).length := by
      rw [buildSegSpans_length]; exact hj'
    simp only [buildSegSpans_cons, List.getElem_cons_succ]
    rw [buildSegSpans_getElem n rest (i0 + 1) j hj' hj2']
    have h3 : i0 + 1 + j = i0 + (j + 1) := by omega
    rw [h3]

theorem except_map_ok {α β ε : Type} (f : α → β) (e : Except ε α) (y : β)
    (h : e.map f = .ok y) : ∃ x, e = .ok x ∧ y = f x := by
  cases e with
  | error a => exact Except.noConfusion h
  | ok x => exact ⟨x, rfl, (Except.ok.inj h).symm⟩

theorem v2231_spans (data : List Record) (m : Int) (pos : List ℚ)
    (spans : List (String × SegSpan))
    (hres : calculate_segment_positions_v2231 data m = .ok (pos, spans)) :
    spans = buildSegSpans ((pySliceTake m (segKeys data)).length : ℚ) 0
      (pySliceTake m (segKeys data)) := by
  rw [calculate_segment_positions_v2231] at hres
  obtain ⟨x, _, hy⟩ := except_map_ok _ _ _ hres
  exact (Prod.mk.inj hy).2

/-! ## Claims -/

/-- **C5**: the layout computation is deterministic -- identical
`(records, column-present flag, max_segments)` inputs give identical
results -- and the segment keys of the output are the first-seen-order
deduplication of the record keys, truncated at `num_segments` (not an
unordered-set iteration). -/
theorem claim_C5_determinism (d1 d2 : List Record) (c1 c2 : Bool) (m1 m2 : Int)
    (angles : List ℚ) (segs : List (String × SegInfo))
    (h1 : d1 = d2) (h2 : c1 = c2) (h3 : m1 = m2)
    (hres : calculate_segment_positions d1 true m1 = .ok (.pair angles segs)) :
    calculate_segment_positions d1 c1 m1 = calculate_segment_positions d2 c2 m2 ∧
    segs.map Prod.fst = survivingKeys d1 m1 ∧
    survivingKeys d1 m1 =
      pySliceTake (min ((uniqueFirstSeen (d1.map (fun r => r.key))).length : Int) m1)
        (uniqueFirstSeen (d1.map (fun r => r.key))) := by
  subst h1
  subst h2
  subst h3
  refine ⟨rfl, ?_, rfl⟩
  have h := ok_pair_of_run d1 m1 angles segs hres
  rw [h.2, cspSegs_map_fst]

/-- Witness for C5 at a concrete input: two records with distinct keys,
`max_segments = 8`. -/
theorem claim_C5_witness :
    calculate_segment_positions [⟨"A", "Phase 1", "X"⟩, ⟨"C", "Phase 2", "Y"⟩] true 8 =
      calculate_segment_positions [⟨"A", "Phase 1", "X"⟩, ⟨"C", "Phase 2", "Y"⟩] true 8 ∧
    ([("X", ⟨0, 1/2, [1/4]⟩), ("Y", ⟨1/2, 1, [3/4]⟩)] :
        List (String × SegInfo)).map Prod.fst =
      survivingKeys [⟨"A", "Phase 1", "X"⟩, ⟨"C", "Phase 2", "Y"⟩] 8 ∧
    survivingKeys [⟨"A", "Phase 1", "X"⟩, ⟨"C", "Phase 2", "Y"⟩] 8 =
      pySliceTake
        (min ((uniqueFirstSeen
          (([⟨"A", "Phase 1", "X"⟩, ⟨"C", "Phase 2", "Y"⟩] :
            List Record).map (fun r => r.key))).length : Int) 8)
        (uniqueFirstSeen (([⟨"A", "Phase 1", "X"⟩, ⟨"C", "Phase 2", "Y"⟩] :
          List Record).map (fun r => r.key))) :=
  claim_C5_determinism _ _ _ _ _ _ [1/4, 3/4] _ rfl rfl rfl (by
    simp [calculate_segment_positions, segKeys, uniqueFirstSeen, uniqueAux, pySliceTake,
      buildSegPositions, positionsForPad, assignAngles, List.filter, List.filterMap,
      List.find?]
    norm_num)

/-- **C6** (amended): with at least one record, `max_segments = 0` makes
`calculate_segment_positions` fail -- but with an untyped
`ZeroDivisionError` (no `ConfigurationError` type exists anywhere in the
code), and a *negative* `max_segments` does not fail at all: the call
returns normally. -/
theorem claim_C6_amended (data : List Record) (max_segments : Int)
    (hd : data ≠ []) (hneg : max_segments < 0) :
    calculate_segment_positions data true 0 = .error .zeroDivision ∧
    isOkResult (calculate_segment_positions data true max_segments) = true := by
  have hlen := segKeys_length_pos data hd
  constructor
  · apply csp_run_zero
    rw [cspNum]
    omega
  · have h : cspNum data max_segments ≠ 0 := by
      rw [cspNum]
      omega
    rw [csp_run data max_segments h]
    rfl

/-- Counterexample to C6 as stated: the call with `max_segments = -1 < 1`
on a one-record frame returns normally (an empty layout), so it does not
fail with any error, let alone a typed configuration error. -/
theorem claim_C6_counterexample :
    calculate_segment_positions [⟨"A", "Phase 1", "X"⟩] true (-1) = .ok (.pair [] []) := by
  simp [calculate_segment_positions, segKeys, uniqueFirstSeen, uniqueAux, pySliceTake,
    buildSegPositions, assignAngles, List.filterMap]

/-- Witness for the amended C6 at a concrete input. -/
theorem claim_C6_witness :
    calculate_segment_positions [⟨"A", "Phase 1", "X"⟩] true 0 = .error .zeroDivision ∧
    isOkResult (calculate_segment_positions [⟨"A", "Phase 1", "X"⟩] true (-1)) = true :=
  claim_C6_amended [⟨"A", "Phase 1", "X"⟩] (-1) (by simp) (by norm_num)

/-- **C7** (amended): every `phase_to_radius` variant except the one at
line 3345 maps a phase outside the known set to radius `0`; the variant
at line 3345 maps it to `25` (the `Phase 1` ring) instead. -/
theorem claim_C7_amended (phase : String) (h1 : phase ≠ "Phase 1")
    (h2 : phase ≠ "Phase 2") (h3 : phase ≠ "Phase 3") (h4 : phase ≠ "Marketed") :
    phase_to_radius phase = 0 ∧ phase_to_radius_v860 phase = 0 ∧
    phase_to_radius_v3345 phase = 25 := by
  refine ⟨?_, ?_, ?_⟩ <;>
    simp [phase_to_radius, phase_to_radius_v860, phase_to_radius_v3345, h1, h2, h3, h4]

/-- Counterexample to C7 as stated: the `phase_to_radius` variant at line
3345 sends the unknown phase `"Phase 4"` to `25`, not `0`. -/
theorem claim_C7_counterexample :
    phase_to_radius_v3345 "Phase 4" = 25 ∧ (25 : ℚ) ≠ 0 := by
  constructor
  · simp [phase_to_radius_v3345]
  · norm_num

/-- Witness for the amended C7 at the concrete unknown phase `"Phase 4"`. -/
theorem claim_C7_witness :
    phase_to_radius "Phase 4" = 0 ∧ phase_to_radius_v860 "Phase 4" = 0 ∧
    phase_to_radius_v3345 "Phase 4" = 25 :=
  claim_C7_amended "Phase 4" (by simp) (by simp) (by simp) (by simp)

/-- **C9** (amended): zero records yield empty, error-free output only on
the missing-column fallback path (a bare empty list in v64; the empty
pair in v2910); with the segment column *present* and a non-negative
`max_segments`, zero records make `2π / num_segments` divide by zero. -/
theorem claim_C9_amended (max_segments : Int) (hm : 0 ≤ max_segments) :
    calculate_segment_positions [] false max_segments = .ok (.bare []) ∧
    calculate_segment_positions_v2910 [] false max_segments = .ok (.pair [] []) ∧
    calculate_segment_positions [] true max_segments = .error .zeroDivision := by
  refine ⟨?_, ?_, ?_⟩
  · simp [calculate_segment_positions, linspaceTurns]
  · simp [calculate_segment_positions_v2910, linspaceTurns]
  · apply csp_run_zero
    rw [cspNum]
    simp only [segKeys, uniqueFirstSeen, uniqueAux, List.map_nil, List.length_nil]
    omega

/-- Counterexample to C9 as stated: with zero records and the segment
column present (a perfectly valid column choice), the computation raises
`ZeroDivisionError` instead of returning empty outputs. -/
theorem claim_C9_counterexample :
    calculate_segment_positions [] true 8 = .error .zeroDivision := by
  simp [calculate_segment_positions, segKeys, uniqueFirstSeen, uniqueAux]

/-- Witness for the amended C9 at `max_segments = 8`. -/
theorem claim_C9_witness :
    calculate_segment_positions [] false 8 = .ok (.bare []) ∧
    calculate_segment_positions_v2910 [] false 8 = .ok (.pair [] []) ∧
    calculate_segment_positions [] true 8 = .error .zeroDivision :=
  claim_C9_amended 8 (by norm_num)

theorem unpack2_bare_none (l : List ℚ) (h : l.length ≠ 2) : unpack2 (.bare l) = none := by
  match l with
  | [] => rfl
  | [x] => rfl
  | [x, y] => exact absurd rfl h
  | x :: y :: z :: rest => rfl

/-- **C10**: on the missing-column path the v64 variant returns a *bare*
evenly-spaced list, while every normally-returning call with the column
present returns a 2-tuple; 2-tuple unpacking therefore succeeds on the
normal path and fails on the fallback path whenever the record count
differs from `2`. -/
theorem claim_C10_return_shape (data : List Record) (max_segments : Int) (res : PosResult)
    (hlen : data.length ≠ 2)
    (hres : calculate_segment_positions data true max_segments = .ok res) :
    calculate_segment_positions data false max_segments =
      .ok (.bare (linspaceTurns data.length)) ∧
    unpack2 (.bare (linspaceTurns data.length)) = none ∧
    isPair res = true ∧
    unpack2 res = some (.fromPair (resAngles res) (resSegs res)) := by
  have hnum : cspNum data max_segments ≠ 0 := cspNum_ne_zero_of_ok data _ _ hres
  have hpair : res = .pair (assignAngles data (cspSegs data max_segments))
      (cspSegs data max_segments) := by
    rw [csp_run data _ hnum] at hres
    exact (Except.ok.inj hres).symm
  refine ⟨?_, ?_, ?_, ?_⟩
  · rw [calculate_segment_positions]
    simp
  · exact unpack2_bare_none _ (by rw [linspaceTurns_length]; exact hlen)
  · rw [hpair]; rfl
  · rw [hpair]; rfl

/-- Witness for C10 at a one-record input (record count `1 ≠ 2`). -/
theorem claim_C10_witness :
    calculate_segment_positions [⟨"A", "Phase 1", "X"⟩] false 8 =
      .ok (.bare (linspaceTurns 1)) ∧
    unpack2 (.bare (linspaceTurns 1)) = none ∧
    isPair (.pair [1/2] [("X", ⟨0, 1, [1/2]⟩)]) = true ∧
    unpack2 (.pair [1/2] [("X", ⟨0, 1, [1/2]⟩)]) =
      some (.fromPair (resAngles (.pair [1/2] [("X", ⟨0, 1, [1/2]⟩)]))
        (resSegs (.pair [1/2] [("X", ⟨0, 1, [1/2]⟩)]))) :=
  claim_C10_return_shape [⟨"A", "Phase 1", "X"⟩] 8 (.pair [1/2] [("X", ⟨0, 1, [1/2]⟩)])
    (by simp)
    (by
      simp [calculate_segment_positions, segKeys, uniqueFirstSeen, uniqueAux, pySliceTake,
        buildSegPositions, positionsForPad, assignAngles, List.filter, List.filterMap,
        List.find?])

theorem cpis_ok (data : List Record) (num_segments : Option Int) (angles : List ℚ)
    (hres : calculate_position_in_segment data true num_segments = .ok angles) :
    angles = cpisAngles data (segKeys data) (cpisSegAngle data num_segments) 0 data := by
  have h : num_segments.getD ((segKeys data).length : Int) ≠ 0 := by
    intro h0
    rw [cpis_run_zero data num_segments h0] at hres
    exact Except.noConfusion hres
  rw [cpis_run data num_segments h] at hres
  exact (Except.ok.inj hres).symm

/-- **C3** (amended): in the v64/v2910-family `calculate_segment_positions`
and in `calculate_position_in_segment`, a segment with exactly one member
places it exactly at the segment's angular midpoint
`start_angle + (end_angle - start_angle)/2`; the v2231 variant instead
places every member at its segment's *start* angle. -/
theorem claim_C3_amended (data : List Record) (max_segments : Int) (angles : List ℚ)
    (segs : List (String × SegInfo)) (s : String) (info : SegInfo)
    (hres : calculate_segment_positions data true max_segments = .ok (.pair angles segs))
    (hmem : (s, info) ∈ segs)
    (hone : (data.filter (fun r => r.key == s)).length = 1)
    (data2 : List Record) (num2 : Option Int) (angles2 : List ℚ) (i : Nat)
    (hres2 : calculate_position_in_segment data2 true num2 = .ok angles2)
    (hi : i < data2.length) (hi2 : i < angles2.length)
    (hone2 : (data2.filter (fun x => x.key == (data2[i]).key)).length = 1) :
    info.positions = [info.base_angle + (info.end_angle - info.base_angle) / 2] ∧
    angles2[i] =
      ((segKeys data2).indexOf (data2[i]).key : ℚ) * cpisSegAngle data2 num2 +
        ((((segKeys data2).indexOf (data2[i]).key : ℚ) * cpisSegAngle data2 num2 +
            cpisSegAngle data2 num2) -
          ((segKeys data2).indexOf (data2[i]).key : ℚ) * cpisSegAngle data2 num2) / 2 := by
  constructor
  · have hs := (ok_pair_of_run data max_segments angles segs hres).2
    rw [hs, cspSegs] at hmem
    obtain ⟨j, hj, _, hbase, hend, hpos⟩ :=
      mem_buildSegPositions data _ _ _ 0 (s, info) hmem
    have h1 : info.positions = positionsForPad info.base_angle (cspSegAngle data max_segments)
        (cspSegAngle data max_segments * (1 / 10)) 1 := by
      rw [← hone]
      exact hpos
    rw [h1, positionsForPad_one]
    have hspan : info.end_angle - info.base_angle = cspSegAngle data max_segments := by
      rw [hend]; ring
    rw [hspan]
  · have ha := cpis_ok data2 num2 angles2 hres2
    have hi2' : i < (cpisAngles data2 (segKeys data2) (cpisSegAngle data2 num2) 0 data2).length := by
      rw [cpisAngles_length]; exact hi
    have : angles2[i] = cpisRow data2 (segKeys data2) (cpisSegAngle data2 num2) i
        (data2[i]) := by
      have := cpisAngles_getElem data2 (segKeys data2) (cpisSegAngle data2 num2)
        data2 0 i hi hi2'
      simp only [Nat.zero_add] at this
      rw [← this]
      revert hi2
      rw [ha]
      intro hi2
      rfl
    rw [this, cpisRow]
    simp only [hone2, if_pos]
    ring

/-- Counterexample to C3 as stated: in the v2231 variant a one-record
frame has a single segment spanning the whole circle whose single member
is placed at angle `0` -- the segment's start -- not at the midpoint
`0 + (2π - 0)/2`. -/
theorem claim_C3_counterexample :
    calculate_segment_positions_v2231 [⟨"A", "Phase 1", "X"⟩] 8 =
      .ok ([0], [("X", ⟨0, 1⟩)]) ∧
    (0 : ℚ) ≠ 0 + (1 - 0) / 2 := by
  constructor
  · simp [calculate_segment_positions_v2231, segKeys, uniqueFirstSeen, uniqueAux,
      pySliceTake, buildSegSpans, List.mapM, List.mapM.loop, List.find?, Except.map]
  · norm_num

/-- Witness for the amended C3: a two-key frame where each key has exactly
one member, checked for the second record of `calculate_position_in_segment`
and segment `"Y"` of `calculate_segment_positions`. -/
theorem claim_C3_witness :
    SegInfo.positions ⟨1/2, 1, [3/4]⟩ =
      [SegInfo.base_angle ⟨1/2, 1, [3/4]⟩ +
        (SegInfo.end_angle ⟨1/2, 1, [3/4]⟩ - SegInfo.base_angle ⟨1/2, 1, [3/4]⟩) / 2] ∧
    ([1/4, 3/4] : List ℚ).get ⟨1, by norm_num⟩ =
      ((segKeys [⟨"A", "Phase 1", "X"⟩, ⟨"C", "Phase 2", "Y"⟩]).indexOf
          (([⟨"A", "Phase 1", "X"⟩, ⟨"C", "Phase 2", "Y"⟩] :
            List Record).get ⟨1, by norm_num⟩).key : ℚ) *
          cpisSegAngle [⟨"A", "Phase 1", "X"⟩, ⟨"C", "Phase 2", "Y"⟩] none +
        ((((segKeys [⟨"A", "Phase 1", "X"⟩, ⟨"C", "Phase 2", "Y"⟩]).indexOf
          (([⟨"A", "Phase 1", "X"⟩, ⟨"C", "Phase 2", "Y"⟩] :
            List Record).get ⟨1, by norm_num⟩).key : ℚ) *
            cpisSegAngle [⟨"A", "Phase 1", "X"⟩, ⟨"C", "Phase 2", "Y"⟩] none +
            cpisSegAngle [⟨"A", "Phase 1", "X"⟩, ⟨"C", "Phase 2", "Y"⟩] none) -
          ((segKeys [⟨"A", "Phase 1", "X"⟩, ⟨"C", "Phase 2", "Y"⟩]).indexOf
          (([⟨"A", "Phase 1", "X"⟩, ⟨"C", "Phase 2", "Y"⟩] :
            List Record).get ⟨1, by norm_num⟩).key : ℚ) *
            cpisSegAngle [⟨"A", "Phase 1", "X"⟩, ⟨"C", "Phase 2", "Y"⟩] none) / 2 :=
  claim_C3_amended [⟨"A", "Phase 1", "X"⟩, ⟨"C", "Phase 2", "Y"⟩] 8 [1/4, 3/4]
    [("X", ⟨0, 1/2, [1/4]⟩), ("Y", ⟨1/2, 1, [3/4]⟩)] "Y" ⟨1/2, 1, [3/4]⟩
    (by
      simp [calculate_segment_positions, segKeys, uniqueFirstSeen, uniqueAux, pySliceTake,
        buildSegPositions, positionsForPad, assignAngles, List.filter, List.filterMap,
        List.find?]
      norm_num)
    (by simp)
    (by simp [List.filter])
    [⟨"A", "Phase 1", "X"⟩, ⟨"C", "Phase 2", "Y"⟩] none [1/4, 3/4] 1
    (by
      simp [calculate_position_in_segment, segKeys, uniqueFirstSeen, uniqueAux,
        cpisAngles, cpisRow, List.filter, List.take]
      norm_num)
    (by norm_num) (by norm_num)
    (by simp [List.filter])

theorem v2431_segs (data : List Record) (pos : List ℚ) (segs : List (String × SegInfo))
    (hres : calculate_segment_positions_v2431 data = .ok (pos, segs)) :
    segs = buildSegPositions data (1 / (((segKeys data).length : Int) : ℚ))
      (if ((segKeys data).length : Int) = 2 then
        (1 / (((segKeys data).length : Int) : ℚ)) * (15 / 100)
      else (1 / (((segKeys data).length : Int) : ℚ)) * (8 / 100))
      0 (segKeys data) := by
  rw [calculate_segment_positions_v2431] at hres
  split at hres
  · exact Except.noConfusion hres
  · exact ((Prod.mk.inj (Except.ok.inj hres)).2).symm

/-- **C1** (amended): member `j` (0-indexed) of a segment with `n > 1`
members sits, in the v64/v2910-family variants, at
`start + 0.1*span + j * (0.8*span)/(n-1)` (first member on the inner 10%
padding boundary, last at `end - 0.1*span`); `calculate_position_in_segment`
of `bullseye_radar_app.py` instead places member `j` at
`start + j*span/n` (its first member at the segment start, no padding),
and the v2431 variant pads by `0.15*span` (exactly two segments) or
`0.08*span` (otherwise) in place of `0.1*span`. -/
theorem claim_C1_amended (data : List Record) (max_segments : Int) (angles : List ℚ)
    (segs : List (String × SegInfo)) (s : String) (info : SegInfo) (j : Nat)
    (hres : calculate_segment_positions data true max_segments = .ok (.pair angles segs))
    (hmem : (s, info) ∈ segs)
    (hn : 2 ≤ (data.filter (fun r => r.key == s)).length)
    (hj : j < info.positions.length)
    (data2 : List Record) (num2 : Option Int) (angles2 : List ℚ) (i : Nat)
    (hres2 : calculate_position_in_segment data2 true num2 = .ok angles2)
    (hi : i < data2.length) (hi2 : i < angles2.length)
    (hn2 : 2 ≤ (data2.filter (fun x => x.key == (data2[i]).key)).length)
    (data3 : List Record) (pos3 : List ℚ) (segs3 : List (String × SegInfo))
    (s3 : String) (info3 : SegInfo) (j3 : Nat)
    (hres3 : calculate_segment_positions_v2431 data3 = .ok (pos3, segs3))
    (hmem3 : (s3, info3) ∈ segs3)
    (hn3 : 2 ≤ (data3.filter (fun r => r.key == s3)).length)
    (hj3 : j3 < info3.positions.length) :
    info.positions[j] =
      info.base_angle + (1 / 10) * (info.end_angle - info.base_angle) +
        (j : ℚ) * ((8 / 10) * (info.end_angle - info.base_angle)) /
          (((data.filter (fun r => r.key == s)).length : ℚ) - 1) ∧
    angles2[i] =
      ((segKeys data2).indexOf (data2[i]).key : ℚ) * cpisSegAngle data2 num2 +
        (((data2.take i).filter (fun x => x.key == (data2[i]).key)).length : ℚ) *
            cpisSegAngle data2 num2 /
          ((data2.filter (fun x => x.key == (data2[i]).key)).length : ℚ) ∧
    info3.positions[j3] =
      info3.base_angle +
        (if ((segKeys data3).length : Int) = 2 then (15 / 100) else (8 / 100)) *
          (info3.end_angle - info3.base_angle) +
        (j3 : ℚ) * ((info3.end_angle - info3.base_angle) -
            2 * ((if ((segKeys data3).length : Int) = 2 then (15 / 100) else (8 / 100)) *
              (info3.end_angle - info3.base_angle))) /
          (((data3.filter (fun r => r.key == s3)).length : ℚ) - 1) := by
  refine ⟨?_, ?_, ?_⟩
  · have hs := (ok_pair_of_run data max_segments angles segs hres).2
    rw [hs, cspSegs] at hmem
    obtain ⟨jj, hjj, _, hbase, hend, hpos⟩ :=
      mem_buildSegPositions data _ _ _ 0 (s, info) hmem
    have hne1 : (data.filter (fun r => r.key == s)).length ≠ 1 := by omega
    have hspan : info.end_angle - info.base_angle = cspSegAngle data max_segments := by
      rw [hend]; ring
    have hj' : j < (positionsForPad info.base_angle (cspSegAngle data max_segments)
        (cspSegAngle data max_segments * (1 / 10))
        ((data.filter (fun r => r.key == s)).length)).length := by
      rw [← hpos]; exact hj
    have := positionsForPad_getElem info.base_angle (cspSegAngle data max_segments)
      (cspSegAngle data max_segments * (1 / 10))
      ((data.filter (fun r => r.key == s)).length) hne1 j hj'
    revert hj
    rw [hpos]
    intro hj
    rw [this, hspan]
    ring
  · have ha := cpis_ok data2 num2 angles2 hres2
    have hi2' : i < (cpisAngles data2 (segKeys data2) (cpisSegAngle data2 num2) 0
        data2).length := by
      rw [cpisAngles_length]; exact hi
    have hrow : angles2[i] = cpisRow data2 (segKeys data2) (cpisSegAngle data2 num2) i
        (data2[i]) := by
      have := cpisAngles_getElem data2 (segKeys data2) (cpisSegAngle data2 num2)
        data2 0 i hi hi2'
      simp only [Nat.zero_add] at this
      rw [← this]
      revert hi2
      rw [ha]
      intro hi2
      rfl
    have hne1 : (data2.filter (fun x => x.key == (data2[i]).key)).length ≠ 1 := by omega
    rw [hrow, cpisRow]
    simp only [hne1, if_false, if_neg hne1]
  · have hs3 := v2431_segs data3 pos3 segs3 hres3
    rw [hs3] at hmem3
    obtain ⟨jj, hjj, _, hbase, hend, hpos⟩ :=
      mem_buildSegPositions data3 _ _ _ 0 (s3, info3) hmem3
    have hne1 : (data3.filter (fun r => r.key == s3)).length ≠ 1 := by omega
    have hspan : info3.end_angle - info3.base_angle =
        1 / (((segKeys data3).length : Int) : ℚ) := by
      rw [hend]; ring
    have hj3' : j3 < (positionsForPad info3.base_angle
        (1 / (((segKeys data3).length : Int) : ℚ))
        (if ((segKeys data3).length : Int) = 2 then
          (1 / (((segKeys data3).length : Int) : ℚ)) * (15 / 100)
        else (1 / (((segKeys data3).length : Int) : ℚ)) * (8 / 100))
        ((data3.filter (fun r => r.key == s3)).length)).length := by
      rw [← hpos]; exact hj3
    have hgot := positionsForPad_getElem info3.base_angle
      (1 / (((segKeys data3).length : Int) : ℚ))
      (if ((segKeys data3).length : Int) = 2 then
        (1 / (((segKeys data3).length : Int) : ℚ)) * (15 / 100)
      else (1 / (((segKeys data3).length : Int) : ℚ)) * (8 / 100))
      ((data3.filter (fun r => r.key == s3)).length) hne1 j3 hj3'
    revert hj3
    rw [hpos]
    intro hj3
    rw [hgot, hspan]
    by_cases h2 : ((segKeys data3).length : Int) = 2
    · rw [if_pos h2, if_pos h2]
      ring
    · rw [if_neg h2, if_neg h2]
      ring

/-- Counterexample to C1 as stated: in `calculate_position_in_segment`,
two records sharing one segment key give the single segment the full
circle (`span = 2π`), and the first member's angle is `0`, not the
claimed `start_angle + 0.1*span = 0.1*2π`. -/
theorem claim_C1_counterexample :
    calculate_position_in_segment [⟨"A", "Phase 1", "X"⟩, ⟨"B", "Phase 3", "X"⟩] true none =
      .ok [0, 1/2] ∧
    (0 : ℚ) ≠ 0 + (1 / 10) * (1 - 0) := by
  constructor
  · simp [calculate_position_in_segment, segKeys, uniqueFirstSeen, uniqueAux,
      cpisAngles, cpisRow, List.filter, List.take]
  · norm_num

/-- Concrete two-member one-segment frame for the C1 witness (v64 part
and `calculate_position_in_segment` part). -/
def wRecsXX : List Record := [⟨"A", "Phase 1", "X"⟩, ⟨"B", "Phase 3", "X"⟩]

/-- Concrete three-record two-segment frame for the C1 witness (v2431
part: two segments, so padding `0.15*span`). -/
def wRecsXXY : List Record :=
  [⟨"A", "Phase 1", "X"⟩, ⟨"B", "Phase 3", "X"⟩, ⟨"C", "Phase 2", "Y"⟩]

/-- The segment dictionary entry of `"X"` computed by v64 on `wRecsXX`. -/
def wInfoX : SegInfo := ⟨0, 1, [1/10, 9/10]⟩

/-- The segment dictionary entry of `"X"` computed by v2431 on `wRecsXXY`. -/
def wInfoX2431 : SegInfo := ⟨0, 1/2, [3/40, 17/40]⟩

/-- Witness for the amended C1 at member `j = 0` of two-member segments. -/
theorem claim_C1_witness :
    wInfoX.positions.get ⟨0, by norm_num [wInfoX]⟩ =
      wInfoX.base_angle + (1 / 10) * (wInfoX.end_angle - wInfoX.base_angle) +
        ((0 : Nat) : ℚ) * ((8 / 10) * (wInfoX.end_angle - wInfoX.base_angle)) /
          (((wRecsXX.filter (fun r => r.key == "X")).length : ℚ) - 1) ∧
    ([0, 1/2] : List ℚ).get ⟨0, by norm_num⟩ =
      ((segKeys wRecsXX).indexOf (wRecsXX.get ⟨0, by norm_num [wRecsXX]⟩).key : ℚ) *
          cpisSegAngle wRecsXX none +
        (((wRecsXX.take 0).filter
            (fun x => x.key == (wRecsXX.get ⟨0, by norm_num [wRecsXX]⟩).key)).length : ℚ) *
            cpisSegAngle wRecsXX none /
          ((wRecsXX.filter
            (fun x => x.key == (wRecsXX.get ⟨0, by norm_num [wRecsXX]⟩).key)).length : ℚ) ∧
    wInfoX2431.positions.get ⟨0, by norm_num [wInfoX2431]⟩ =
      wInfoX2431.base_angle +
        (if ((segKeys wRecsXXY).length : Int) = 2 then (15 / 100) else (8 / 100)) *
          (wInfoX2431.end_angle - wInfoX2431.base_angle) +
        ((0 : Nat) : ℚ) * ((wInfoX2431.end_angle - wInfoX2431.base_angle) -
            2 * ((if ((segKeys wRecsXXY).length : Int) = 2 then (15 / 100) else (8 / 100)) *
              (wInfoX2431.end_angle - wInfoX2431.base_angle))) /
          (((wRecsXXY.filter (fun r => r.key == "X")).length : ℚ) - 1) :=
  claim_C1_amended wRecsXX 2 [1/10, 9/10] [("X", wInfoX)] "X" wInfoX 0
    (by
      simp [wRecsXX, wInfoX, calculate_segment_positions, segKeys, uniqueFirstSeen,
        uniqueAux, pySliceTake, buildSegPositions, positionsForPad, assignAngles,
        List.filter, List.filterMap, List.find?, List.range_succ]
      norm_num)
    (by simp)
    (by simp [wRecsXX, List.filter])
    (by norm_num [wInfoX])
    wRecsXX none [0, 1/2] 0
    (by
      simp [wRecsXX, calculate_position_in_segment, segKeys, uniqueFirstSeen, uniqueAux,
        cpisAngles, cpisRow, List.filter, List.take])
    (by norm_num [wRecsXX]) (by norm_num)
    (by simp [wRecsXX, List.filter])
    wRecsXXY [3/40, 17/40, 3/4] [("X", wInfoX2431), ("Y", ⟨1/2, 1, [3/4]⟩)] "X" wInfoX2431 0
    (by
      simp [wRecsXXY, wInfoX2431, calculate_segment_positions_v2431, segKeys,
        uniqueFirstSeen, uniqueAux, buildSegPositions, positionsForPad,
        assignAnglesByIndex, List.filter, List.find?, List.take, List.range_succ]
      norm_num)
    (by simp)
    (by simp [wRecsXXY, List.filter])
    (by norm_num [wInfoX2431])

theorem survivingKeys_length (data : List Record) (m : Int)
    (h0 : 0 ≤ cspNum data m) :
    (survivingKeys data m).length = (cspNum data m).toNat := by
  rw [survivingKeys]
  apply pySliceTake_length_of_le _ _ h0
  rw [cspNum]
  exact min_le_left _ _

theorem cspSegs_length (data : List Record) (m : Int) (h0 : 0 ≤ cspNum data m) :
    (cspSegs data m).length = (cspNum data m).toNat := by
  rw [cspSegs, buildSegPositions_length]
  exact survivingKeys_length data m h0

/-- **C2**: in the v64-family variants, with at least one surviving
segment (`num_segments ≥ 1`), the segment spans partition the circle in
first-seen order: `num_segments = min(distinct keys, max_segments)`
segments of equal span `2π/num_segments`, segment `i` starting at
`i * 2π/num_segments` and ending at `start + 2π/num_segments`, each end
meeting the next start, the first start `0`, the last end `2π`; the same
partition holds for the `linspace`-based v2231 variant (one full circle
is the rational `1`: angles are in turns). -/
theorem claim_C2_partition (data : List Record) (max_segments : Int) (angles : List ℚ)
    (segs : List (String × SegInfo)) (i : Nat)
    (hm : 1 ≤ cspNum data max_segments)
    (hres : calculate_segment_positions data true max_segments = .ok (.pair angles segs))
    (hi : i < segs.length)
    (data4 : List Record) (m4 : Int) (pos4 : List ℚ) (spans4 : List (String × SegSpan))
    (k : Nat)
    (hres4 : calculate_segment_positions_v2231 data4 m4 = .ok (pos4, spans4))
    (hk : k < spans4.length) :
    cspNum data max_segments = min ((segKeys data).length : Int) max_segments ∧
    segs.length = (cspNum data max_segments).toNat ∧
    (segs[i]).2.base_angle = (i : ℚ) * cspSegAngle data max_segments ∧
    (segs[i]).2.end_angle =
      (segs[i]).2.base_angle + cspSegAngle data max_segments ∧
    (∀ h2 : i + 1 < segs.length,
      (segs[i + 1]).2.base_angle = (segs[i]).2.end_angle) ∧
    (∀ h0 : 0 < segs.length, (segs[0]).2.base_angle = 0) ∧
    (i = segs.length - 1 → (segs[i]).2.end_angle = 1) ∧
    (spans4[k]).2.base_angle = (k : ℚ) / ((spans4.length : Nat) : ℚ) ∧
    (spans4[k]).2.end_angle = ((k : ℚ) + 1) / ((spans4.length : Nat) : ℚ) ∧
    (∀ h4 : k + 1 < spans4.length,
      (spans4[k + 1]).2.base_angle = (spans4[k]).2.end_angle) ∧
    (∀ h5 : 0 < spans4.length, (spans4[0]).2.base_angle = 0) ∧
    (k = spans4.length - 1 → (spans4[k]).2.end_angle = 1) := by
  have hseg := (ok_pair_of_run data max_segments angles segs hres).2
  have hlen : segs.length = (cspNum data max_segments).toNat := by
    rw [hseg]; exact cspSegs_length data max_segments (by omega)
  have hkeylen : (survivingKeys data max_segments).length = (cspNum data max_segments).toNat :=
    survivingKeys_length data max_segments (by omega)
  have hnumq : ((cspNum data max_segments : Int) : ℚ) ≠ 0 := by
    have : (1 : ℚ) ≤ ((cspNum data max_segments : Int) : ℚ) := by exact_mod_cast hm
    linarith
  have hget : ∀ (t : Nat) (ht : t < segs.length),
      (segs[t]).2.base_angle = (t : ℚ) * cspSegAngle data max_segments ∧
      (segs[t]).2.end_angle =
        (t : ℚ) * cspSegAngle data max_segments + cspSegAngle data max_segments := by
    intro t
    have htk : ∀ ht : t < segs.length, t < (survivingKeys data max_segments).length := by
      intro ht
      rw [hkeylen, ← hlen]; exact ht
    have hsegs2 : segs = buildSegPositions data (cspSegAngle data max_segments)
        (cspSegAngle data max_segments * (1 / 10)) 0 (survivingKeys data max_segments) := hseg
    rw [hsegs2] at htk ⊢
    intro ht
    rw [buildSegPositions_getElem data _ _ _ 0 t (htk ht) ht]
    constructor <;> simp
  have hspans : spans4 = buildSegSpans ((pySliceTake m4 (segKeys data4)).length : ℚ) 0
      (pySliceTake m4 (segKeys data4)) := v2231_spans data4 m4 pos4 spans4 hres4
  have hlen4 : spans4.length = (pySliceTake m4 (segKeys data4)).length := by
    rw [hspans, buildSegSpans_length]
  have hget4 : ∀ (t : Nat) (ht : t < spans4.length),
      (spans4[t]).2.base_angle = (t : ℚ) / ((spans4.length : Nat) : ℚ) ∧
      (spans4[t]).2.end_angle = ((t : ℚ) + 1) / ((spans4.length : Nat) : ℚ) := by
    intro t ht
    have htk : t < (pySliceTake m4 (segKeys data4)).length := by rw [← hlen4]; exact ht
    have ht2 : t < (buildSegSpans ((pySliceTake m4 (segKeys data4)).length : ℚ) 0
        (pySliceTake m4 (segKeys data4))).length := by
      rw [buildSegSpans_length]; exact htk
    have hh : (spans4[t]) = ((buildSegSpans ((pySliceTake m4 (segKeys data4)).length : ℚ) 0
        (pySliceTake m4 (segKeys data4)))[t]) := by
      revert ht
      rw [hspans]
      intro ht
      rfl
    rw [hh, buildSegSpans_getElem _ _ 0 t htk ht2, hlen4]
    constructor <;> simp
  refine ⟨rfl, hlen, (hget i hi).1, ?_, ?_, ?_, ?_, (hget4 k hk).1, (hget4 k hk).2,
    ?_, ?_, ?_⟩
  · rw [(hget i hi).2, (hget i hi).1]
  · intro h2
    rw [(hget (i + 1) h2).1, (hget i hi).2]
    push_cast
    ring
  · intro h0
    rw [(hget 0 h0).1]
    simp
  · intro hlast
    rw [(hget i hi).2]
    have : (i : ℚ) + 1 = ((cspNum data max_segments : Int) : ℚ) := by
      have h1 : i + 1 = (cspNum data max_segments).toNat := by omega
      have h2 : ((cspNum data max_segments).toNat : ℚ) =
          ((cspNum data max_segments : Int) : ℚ) := by
        exact_mod_cast Int.toNat_of_nonneg (by omega : 0 ≤ cspNum data max_segments)
      rw [← h2, ← h1]
      push_cast
      ring
    rw [cspSegAngle]
    field_simp
    linarith [this]
  · intro h4
    rw [(hget4 (k + 1) h4).1, (hget4 k hk).2]
    push_cast
    ring
  · intro h5
    rw [(hget4 0 h5).1]
    simp
  · intro hlast
    rw [(hget4 k hk).2]
    have hq : ((spans4.length : Nat) : ℚ) ≠ 0 := by
      have : 0 < spans4.length := by omega
      positivity
    have : (k : ℚ) + 1 = ((spans4.length : Nat) : ℚ) := by
      have h1 : k + 1 = spans4.length := by omega
      exact_mod_cast h1
    rw [this]
    field_simp

/-- Two-record two-segment frame for the C2/C4 witnesses. -/
def wRecsXY : List Record := [⟨"A", "Phase 1", "X"⟩, ⟨"C", "Phase 2", "Y"⟩]

/-- The segment dictionary v64 computes on `wRecsXY` with `max_segments = 8`. -/
def wSegsXY : List (String × SegInfo) := [("X", ⟨0, 1/2, [1/4]⟩), ("Y", ⟨1/2, 1, [3/4]⟩)]

/-- One-record frame for the v2231 half of the C2 witness. -/
def wRecX : List Record := [⟨"A", "Phase 1", "X"⟩]

/-- The spans v2231 computes on `wRecX`. -/
def wSpansX : List (String × SegSpan) := [("X", ⟨0, 1⟩)]

/-- Witness for C2 at the last segment (`i = 1`) of a two-segment layout
and the only segment (`k = 0`) of a one-segment v2231 layout. -/
theorem claim_C2_witness :
    cspNum wRecsXY 8 = min ((segKeys wRecsXY).length : Int) 8 ∧
    wSegsXY.length = (cspNum wRecsXY 8).toNat ∧
    (wSegsXY.get ⟨1, by norm_num [wSegsXY]⟩).2.base_angle =
      ((1 : Nat) : ℚ) * cspSegAngle wRecsXY 8 ∧
    (wSegsXY.get ⟨1, by norm_num [wSegsXY]⟩).2.end_angle =
      (wSegsXY.get ⟨1, by norm_num [wSegsXY]⟩).2.base_angle + cspSegAngle wRecsXY 8 ∧
    (∀ h2 : 1 + 1 < wSegsXY.length,
      (wSegsXY[1 + 1]).2.base_angle =
        (wSegsXY.get ⟨1, by norm_num [wSegsXY]⟩).2.end_angle) ∧
    (∀ h0 : 0 < wSegsXY.length, (wSegsXY[0]).2.base_angle = 0) ∧
    (1 = wSegsXY.length - 1 →
      (wSegsXY.get ⟨1, by norm_num [wSegsXY]⟩).2.end_angle = 1) ∧
    (wSpansX.get ⟨0, by norm_num [wSpansX]⟩).2.base_angle =
      ((0 : Nat) : ℚ) / ((wSpansX.length : Nat) : ℚ) ∧
    (wSpansX.get ⟨0, by norm_num [wSpansX]⟩).2.end_angle =
      (((0 : Nat) : ℚ) + 1) / ((wSpansX.length : Nat) : ℚ) ∧
    (∀ h4 : 0 + 1 < wSpansX.length,
      (wSpansX[0 + 1]).2.base_angle =
        (wSpansX.get ⟨0, by norm_num [wSpansX]⟩).2.end_angle) ∧
    (∀ h5 : 0 < wSpansX.length, (wSpansX[0]).2.base_angle = 0) ∧
    (0 = wSpansX.length - 1 →
      (wSpansX.get ⟨0, by norm_num [wSpansX]⟩).2.end_angle = 1) :=
  claim_C2_partition wRecsXY 8 [1/4, 3/4] wSegsXY 1
    (by norm_num [cspNum, segKeys, uniqueFirstSeen, uniqueAux, wRecsXY])
    (by
      simp [wRecsXY, wSegsXY, calculate_segment_positions, segKeys, uniqueFirstSeen,
        uniqueAux, pySliceTake, buildSegPositions, positionsForPad, assignAngles,
        List.filter, List.filterMap, List.find?]
      norm_num)
    (by norm_num [wSegsXY])
    wRecX 8 [0] wSpansX 0
    (by
      simp [wRecX, wSpansX, calculate_segment_positions_v2231, segKeys, uniqueFirstSeen,
        uniqueAux, pySliceTake, buildSegSpans, List.mapM, List.mapM.loop, List.find?,
        Except.map])
    (by norm_num [wSpansX])

/-- **C4**: in the v64 variant, the angle output is exactly the
input-order list of angles of the records whose key is among the first
`min(distinct, max_segments)` distinct keys (the surviving keys, in
first-seen order); records keyed by any later distinct key contribute
nothing to the output. -/
theorem claim_C4_cutoff (data : List Record) (max_segments : Int) (angles : List ℚ)
    (segs : List (String × SegInfo))
    (hres : calculate_segment_positions data true max_segments = .ok (.pair angles segs)) :
    angles =
      (data.filter (fun r => (survivingKeys data max_segments).contains r.key)).map
        (recordAngle data segs) ∧
    angles.length =
      (data.filter (fun r => (survivingKeys data max_segments).contains r.key)).length ∧
    survivingKeys data max_segments =
      pySliceTake (min ((segKeys data).length : Int) max_segments) (segKeys data) := by
  obtain ⟨ha, hs⟩ := ok_pair_of_run data max_segments angles segs hres
  have h1 : angles =
      (data.filter (fun r => (survivingKeys data max_segments).contains r.key)).map
        (recordAngle data segs) := by
    rw [hs, ha]
    exact assignAngles_eq_map_filter data max_segments
  exact ⟨h1, by rw [h1, List.length_map], rfl⟩

/-- The claim's cutoff scenario: five distinct keys `A..E` in first-seen
order (`A` appearing twice) with `max_segments = 2`. -/
def wRecs5 : List Record :=
  [⟨"a1", "Phase 1", "A"⟩, ⟨"b1", "Phase 1", "B"⟩, ⟨"c1", "Phase 1", "C"⟩,
   ⟨"d1", "Phase 1", "D"⟩, ⟨"e1", "Phase 1", "E"⟩, ⟨"a2", "Phase 2", "A"⟩]

/-- The segment dictionary v64 computes on `wRecs5` with `max_segments = 2`. -/
def wSegs5 : List (String × SegInfo) :=
  [("A", ⟨0, 1/2, [1/20, 9/20]⟩), ("B", ⟨1/2, 1, [3/4]⟩)]

/-- Witness for C4 on the claim's own scenario: of the six records only
the three keyed `A` or `B` receive angles. -/
theorem claim_C4_witness :
    ([1/20, 3/4, 9/20] : List ℚ) =
      (wRecs5.filter (fun r => (survivingKeys wRecs5 2).contains r.key)).map
        (recordAngle wRecs5 wSegs5) ∧
    ([1/20, 3/4, 9/20] : List ℚ).length =
      (wRecs5.filter (fun r => (survivingKeys wRecs5 2).contains r.key)).length ∧
    survivingKeys wRecs5 2 =
      pySliceTake (min ((segKeys wRecs5).length : Int) 2) (segKeys wRecs5) :=
  claim_C4_cutoff wRecs5 2 [1/20, 3/4, 9/20] wSegs5
    (by
      simp [wRecs5, wSegs5, calculate_segment_positions, segKeys, uniqueFirstSeen,
        uniqueAux, pySliceTake, buildSegPositions, positionsForPad, assignAngles,
        List.filter, List.filterMap, List.find?, List.range_succ]
      norm_num)

/-- **C8** (amended): in the v64 variant with `max_segments ≥ 1`, every
angle in the output lies in `[0, 2π)` (in turns: `[0, 1)`); without that
restriction the claim fails -- `calculate_position_in_segment` with
`num_segments` below the distinct-key count produces angles `≥ 2π`, see
the counterexample. -/
theorem claim_C8_amended (data : List Record) (max_segments : Int) (angles : List ℚ)
    (segs : List (String × SegInfo)) (a : ℚ)
    (hm : 1 ≤ max_segments)
    (hres : calculate_segment_positions data true max_segments = .ok (.pair angles segs))
    (ha : a ∈ angles) :
    0 ≤ a ∧ a < 1 := by
  obtain ⟨haeq, _⟩ := ok_pair_of_run data max_segments angles segs hres
  have hnum0 : cspNum data max_segments ≠ 0 := cspNum_ne_zero_of_ok data _ _ hres
  have hnum1 : 1 ≤ cspNum data max_segments := by
    rw [cspNum] at hnum0 ⊢
    omega
  have hnum00 : 0 ≤ cspNum data max_segments := by omega
  have hnumq : (1 : ℚ) ≤ ((cspNum data max_segments : Int) : ℚ) := by exact_mod_cast hnum1
  have hnumqpos : (0 : ℚ) < ((cspNum data max_segments : Int) : ℚ) := by linarith
  have hsa : 0 < cspSegAngle data max_segments := by
    rw [cspSegAngle]
    exact one_div_pos.2 hnumqpos
  rw [haeq, assignAngles] at ha
  obtain ⟨r, hr, hbody⟩ := List.mem_filterMap.1 ha
  cases hfind : (cspSegs data max_segments).find? (fun q => q.1 == r.key) with
  | none =>
    rw [hfind] at hbody
    exact absurd hbody (by simp)
  | some p =>
    simp only [hfind] at hbody
    split at hbody
    case isFalse => exact absurd hbody (by simp)
    case isTrue hidx =>
      have hamem : a ∈ p.2.positions := by
        have := Option.some.inj hbody
        rw [← this]
        exact List.get_mem _ _ _
      have hpmem : p ∈ buildSegPositions data (cspSegAngle data max_segments)
          (cspSegAngle data max_segments * (1 / 10)) 0 (survivingKeys data max_segments) :=
        List.mem_of_find?_eq_some hfind
      obtain ⟨j, hj, _, hbase, hend, hpos⟩ :=
        mem_buildSegPositions data _ _ _ 0 p hpmem
      have hbounds := positionsForPad_mem_bounds p.2.base_angle
        (cspSegAngle data max_segments) (cspSegAngle data max_segments * (1 / 10))
        ((data.filter (fun x => x.key == p.1)).length)
        (by linarith) (by linarith) a (by rw [← hpos]; exact hamem)
      have hbase' : p.2.base_angle = (j : ℚ) * cspSegAngle data max_segments := by
        rw [hbase]; simp
      have hbasepos : 0 ≤ p.2.base_angle := by
        rw [hbase']
        positivity
      have hkeylen : (survivingKeys data max_segments).length =
          (cspNum data max_segments).toNat :=
        survivingKeys_length data max_segments hnum00
      have hjq : (j : ℚ) + 1 ≤ ((cspNum data max_segments : Int) : ℚ) := by
        have h1 : j + 1 ≤ (cspNum data max_segments).toNat := by
          rw [← hkeylen]; omega
        have h2 : ((cspNum data max_segments).toNat : ℚ) =
            ((cspNum data max_segments : Int) : ℚ) := by
          exact_mod_cast Int.toNat_of_nonneg hnum00
        calc (j : ℚ) + 1 ≤ ((cspNum data max_segments).toNat : ℚ) := by exact_mod_cast h1
        _ = _ := h2
      have hmul : ((j : ℚ) + 1) * cspSegAngle data max_segments ≤
          ((cspNum data max_segments : Int) : ℚ) * cspSegAngle data max_segments :=
        mul_le_mul_of_nonneg_right hjq hsa.le
      have hone : ((cspNum data max_segments : Int) : ℚ) * cspSegAngle data max_segments = 1 := by
        rw [cspSegAngle, mul_one_div, div_self (by linarith)]
      constructor
      · linarith [hbounds.1]
      · have := hbounds.2
        rw [hbase'] at this
        nlinarith [this, hmul, hone]

/-- Counterexample to C8 as stated: `calculate_position_in_segment` with
`num_segments = 1` on a two-key frame assigns the second record the
angle `3π` (in turns `3/2`), outside `[0, 2π)` = `[0, 1)` turns. -/
theorem claim_C8_counterexample :
    calculate_position_in_segment [⟨"A", "Phase 1", "X"⟩, ⟨"B", "Phase 3", "Y"⟩] true
      (some 1) = .ok [1/2, 3/2] ∧
    ¬ ((3/2 : ℚ) < 1) := by
  constructor
  · simp [calculate_position_in_segment, segKeys, uniqueFirstSeen, uniqueAux,
      cpisAngles, cpisRow, List.filter, List.take]
    norm_num
  · norm_num

/-- Witness for the amended C8: the first angle of a two-segment layout
lies in `[0, 1)` turns. -/
theorem claim_C8_witness : (0 : ℚ) ≤ 1/4 ∧ (1/4 : ℚ) < 1 :=
  claim_C8_amended wRecsXY 8 [1/4, 3/4] wSegsXY (1/4)
    (by norm_num)
    (by
      simp [wRecsXY, wSegsXY, calculate_segment_positions, segKeys, uniqueFirstSeen,
        uniqueAux, pySliceTake, buildSegPositions, positionsForPad, assignAngles,
        List.filter, List.filterMap, List.find?]
      norm_num)
    (by norm_num)
